import Mathlib

/-!
Verification of `server/geometry.py`: conversions between WGS84, Cartesian,
Mercator and TMS coordinates and bounding boxes.

Modelling conventions used throughout this file:
* Python floats are modelled as exact real numbers (`ℝ`), Python ints as `ℤ`
  (zoom levels, which the code always treats as non-negative exponents, as `ℕ`).
* A Python attribute that the source may leave at `None` is modelled as an
  `Option`; using such a value in arithmetic or comparisons raises `TypeError`
  in Python, which is modelled by `Except Unit` with `Except.error ()`.
* Python generators are modelled as lists, `%` on integers as `Int.emod`
  (both round toward negative infinity for positive moduli), `&` as `Int.land`
  and `<<` as the two's-complement `ShiftLeft` on `ℤ`.
-/

/-- Using a possibly-unset (`None`) Python value in arithmetic or a comparison:
the value if set, a raised `TypeError` otherwise. -/
def pyval {α : Type} : Option α → Except Unit α
  | some a => Except.ok a
  | none => Except.error ()

/-- Number of elements of Python `range(start, stop, step)` for `step ≠ 0`. -/
def pyRangeLen (start stop step : ℤ) : ℕ :=
  if 0 < step then ((stop - start + step - 1) / step).toNat
  else if step < 0 then ((start - stop + (-step) - 1) / (-step)).toNat
  else 0

/-- Python `range(start, stop, step)` as a list (the code only uses `step = 1`
and `range(zoom, 0, -1)`). -/
def pyRange (start stop step : ℤ) : List ℤ :=
  (List.range (pyRangeLen start stop step)).map (fun i : ℕ => start + step * (i : ℤ))

/-- `griditer(x, y, ncol, nrow=None, step=1)`: all tuples of
`itertools.product(range(x, x + ncol, step), range(y, y + nrow, step))`,
where `nrow` defaults to `ncol`.  `itertools.product` varies the second
(row, `y`) component fastest. -/
def griditer (x y ncol : ℤ) (nrow : Option ℤ) (step : ℤ) : List (ℤ × ℤ) :=
  let nrow := nrow.getD ncol
  (pyRange x (x + ncol) step).flatMap
    (fun a => (pyRange y (y + nrow) step).map (fun b => (a, b)))

/-- Base-class data of `GridCoordinate(zoom, x, y)`: a position in a
multi-zoom-level grid.  `GridBB` instantiates this class directly for its
corners, always with integer coordinates. -/
structure GridCoordinate where
  zoom : ℕ
  x : ℤ
  y : ℤ
deriving DecidableEq, Repr

/-- One step of the `encode_quad_tree` loop body for position `i`:
`mask = 1 << (i - 1)`; `digit = (1 if x & mask else 0) + (2 if y & mask else 0)`;
`quad_key += str(digit)`. -/
def quadStep (x y : ℤ) (quad_key : String) (i : ℤ) : String :=
  let mask : ℤ := 1 <<< (i - 1)
  let digit : ℤ :=
    (if Int.land x mask ≠ 0 then 1 else 0) + (if Int.land y mask ≠ 0 then 2 else 0)
  quad_key ++ toString digit

/-- `GridCoordinate.encode_quad_tree`: fold the digit step over
`range(zoom, 0, -1)` starting from the empty string. -/
def GridCoordinate.encode_quad_tree (g : GridCoordinate) : String :=
  (pyRange (g.zoom : ℤ) 0 (-1)).foldl (quadStep g.x g.y) ""

/-- `TileCoordinate(zoom, x, y)`: a coordinate in a worldwide tile grid.
The coordinates are `Option`s because `TileCoordinate.to_mercator` explicitly
tests them against `None`. -/
structure TileCoordinate where
  zoom : ℕ
  x : Option ℤ
  y : Option ℤ
deriving DecidableEq, Repr

/-- `TileCoordinate.zoom_in`: the four tiles of the next zoom level,
`TileCoordinate(zoom + 1, x, y)` for `(x, y)` in `griditer(x * 2, y * 2, ncol=2)`.
Computing `self.x * 2` raises if the coordinate is unset. -/
def TileCoordinate.zoom_in (t : TileCoordinate) : Except Unit (List TileCoordinate) := do
  let x ← pyval t.x
  let y ← pyval t.y
  pure ((griditer (x * 2) (y * 2) 2 none 1).map (fun p => ⟨t.zoom + 1, some p.1, some p.2⟩))

/-- `RegionCoordinate(zoom, x, y, log_tiles_per_row)`: a square region of
`2 ** log_tiles_per_row` tiles per row in a worldwide grid of regions. -/
structure RegionCoordinate where
  zoom : ℕ
  x : ℤ
  y : ℤ
  log_tiles_per_row : ℕ
deriving DecidableEq, Repr

/-- The constructor's precondition `assert log_tiles_per_row in range(0, 5)`. -/
def RegionCoordinate.valid (r : RegionCoordinate) : Prop :=
  r.log_tiles_per_row < 5

/-- Derived attribute `tiles_per_row = 2 ** log_tiles_per_row`. -/
def RegionCoordinate.tiles_per_row (r : RegionCoordinate) : ℤ :=
  2 ^ r.log_tiles_per_row

/-- Derived attribute
`root_tile = TileCoordinate(zoom, x * tiles_per_row, y * tiles_per_row)`. -/
def RegionCoordinate.root_tile (r : RegionCoordinate) : TileCoordinate :=
  ⟨r.zoom, some (r.x * r.tiles_per_row), some (r.y * r.tiles_per_row)⟩

/-- `RegionCoordinate.get_tiles`: all tiles
`TileCoordinate(root_tile.zoom, x, y)` for `(x, y)` in
`griditer(root_tile.x, root_tile.y, ncol=tiles_per_row)`.  The root tile's
coordinates `x * tiles_per_row` and `y * tiles_per_row` are written inline. -/
def RegionCoordinate.get_tiles (r : RegionCoordinate) : List TileCoordinate :=
  (griditer (r.x * r.tiles_per_row) (r.y * r.tiles_per_row) r.tiles_per_row none 1).map
    (fun p => ⟨r.zoom, some p.1, some p.2⟩)

/-- `RegionCoordinate.zoom_in`: the four regions
`RegionCoordinate(zoom + 1, x, y, log_tiles_per_row)` for `(x, y)` in
`griditer(x * 2, y * 2, ncol=2)`. -/
def RegionCoordinate.zoom_in (r : RegionCoordinate) : List RegionCoordinate :=
  (griditer (r.x * 2) (r.y * 2) 2 none 1).map
    (fun p => ⟨r.zoom + 1, p.1, p.2, r.log_tiles_per_row⟩)

/-- `GridBB(zoom, min_x, min_y, max_x, max_y)`: a bounding box defined by two
grid coordinates.  The record is the attribute state such an instance would
carry; the constructor itself always raises (see `GridBB.init`). -/
structure GridBB where
  zoom : ℕ
  min : GridCoordinate
  max : GridCoordinate
deriving DecidableEq, Repr

/-- Instantiating the base class `GridCoordinate(zoom, x, y)` raises
`TypeError: Can't instantiate abstract class GridCoordinate with abstract
method zoom_in` — the class has `metaclass=ABCMeta` and `zoom_in` is an
`@abstractmethod` — whatever the arguments are. -/
def GridCoordinate.init (zoom : ℕ) (x y : ℤ) : Except Unit GridCoordinate :=
  Except.error ()

/-- The `GridBB` constructor body: `self.min = GridCoordinate(zoom, min_x,
min_y)`; `self.max = GridCoordinate(zoom, max_x, max_y)`.  Both instantiate
the abstract `GridCoordinate`, so every `GridBB(...)` call raises
`TypeError`. -/
def GridBB.init (zoom : ℕ) (min_x min_y max_x max_y : ℤ) : Except Unit GridBB := do
  let mn ← GridCoordinate.init zoom min_x min_y
  let mx ← GridCoordinate.init zoom max_x max_y
  pure ⟨zoom, mn, mx⟩

/-- `GridBB.intersection`, on the attribute state of the two boxes: when the
ranges overlap the method executes `return GridBB(self.zoom, max(min.x,
other.min.x), max(min.y, other.min.y), min(max.x, other.max.x), min(max.y,
other.max.y))`, whose constructor raises `TypeError`; otherwise it returns
the empty list `[]` (modelled as `none`; a `GridBB` instance would be truthy
and `[]` is falsy). -/
def GridBB.intersection (self other : GridBB) : Except Unit (Option GridBB) := do
  if self.min.x ≤ other.max.x ∧ other.min.x ≤ self.max.x ∧
     self.min.y ≤ other.max.y ∧ other.min.y ≤ self.max.y then
    let i ← GridBB.init self.zoom
      (Max.max self.min.x other.min.x) (Max.max self.min.y other.min.y)
      (Min.min self.max.x other.max.x) (Min.min self.max.y other.max.y)
    pure (some i)
  else
    pure none

/-- `GridBB.intersections`: append the direct intersection if truthy; if
`max.x >= 2 ** zoom`, construct the box remapped to x-range
`[0, max.x % 2 ** zoom]` — which raises `TypeError` in `GridBB.__init__` —
and append its intersection with `other` if truthy. -/
def GridBB.intersections (self other : GridBB) : Except Unit (List GridBB) := do
  let acc0 : List GridBB := []
  let i ← self.intersection other
  let acc1 : List GridBB :=
    match i with
    | some i => acc0 ++ [i]
    | none => acc0
  if (2 : ℤ) ^ self.zoom ≤ self.max.x then
    let w ← GridBB.init self.zoom 0 self.min.y (self.max.x % 2 ^ self.zoom) self.max.y
    let i2 ← w.intersection other
    match i2 with
    | some i2 => pure (acc1 ++ [i2])
    | none => pure acc1
  else
    pure acc1

/-- `GridBB.is_inside(tile)`:
`min.y <= tile.y <= max.y and (min.x <= tile.x <= max.x or
(max.x > 2 ** tile.zoom - 1 and 0 <= tile.x <= max.x % (2 ** tile.zoom)))`.
The chained comparison reads `tile.y` first and short-circuits, so `tile.x`
is only read (and can only raise) when the y-range test succeeds. -/
def GridBB.is_inside (self : GridBB) (tile : TileCoordinate) : Except Unit Bool := do
  let ty ← pyval tile.y
  if self.min.y ≤ ty ∧ ty ≤ self.max.y then
    let tx ← pyval tile.x
    pure (decide (self.min.x ≤ tx ∧ tx ≤ self.max.x) ||
          (decide (2 ^ tile.zoom - 1 < self.max.x) &&
           decide (0 ≤ tx ∧ tx ≤ self.max.x % 2 ^ tile.zoom)))
  else
    pure false

/-- Module constant `_earthradius = 6378137.0`. -/
noncomputable def _earthradius : ℝ := 6378137

/-- Module constant `_pi_2 = math.pi / 2.0`. -/
noncomputable def _pi_2 : ℝ := Real.pi / 2

/-- Module constant `_pi_180 = math.pi / 180.0`. -/
noncomputable def _pi_180 : ℝ := Real.pi / 180

/-- Module constant `_pi_360 = math.pi / 360.0`. -/
noncomputable def _pi_360 : ℝ := Real.pi / 360

/-- Module constant `_180_pi = 180.0 / math.pi`. -/
noncomputable def _180_pi : ℝ := 180 / Real.pi

/-- Module state set by the import-time call `init_geometry()`:
`_tilesize = 256.0`. -/
noncomputable def _tilesize : ℝ := 256

/-- Module state set by `init_geometry()`:
`_initialresolution = 2 * math.pi * 6378137 / _tilesize`. -/
noncomputable def _initialresolution : ℝ := 2 * Real.pi * 6378137 / _tilesize

/-- Module state set by `init_geometry()`:
`_originshift = 2 * math.pi * 6378137 / 2.0`. -/
noncomputable def _originshift : ℝ := 2 * Real.pi * 6378137 / 2

/-- Module state set by `init_geometry()`: `_originshift_180 = _originshift / 180.0`. -/
noncomputable def _originshift_180 : ℝ := _originshift / 180

/-- Module state set by `init_geometry()`: `_180_originshift = 180.0 / _originshift`. -/
noncomputable def _180_originshift : ℝ := 180 / _originshift

/-- `GeographicCoordinate(lon=None, lat=None, height=0.0)`: a WGS84 datum. -/
structure GeographicCoordinate where
  lon : Option ℝ
  lat : Option ℝ
  height : ℝ

/-- `CartesianCoordinate(x, y, z)`: a geocentric Cartesian coordinate. -/
structure CartesianCoordinate where
  x : ℝ
  y : ℝ
  z : ℝ

/-- `MercatorCoordinate(x=None, y=None)`: a coordinate in spherical Mercator
EPSG:900913. -/
structure MercatorCoordinate where
  x : Option ℝ
  y : Option ℝ

/-- `GeographicCoordinate.to_cartesian`: `r = _earthradius + height`;
result `(r * cosy * cosx, r * cosy * sinx, r * siny)` with the trigonometric
values taken of `_pi_180 * lon` and `_pi_180 * lat`.  Python evaluates
`cos(_pi_180 * self.lon)` first, so an unset `lon` (then `lat`) raises. -/
noncomputable def GeographicCoordinate.to_cartesian
    (self : GeographicCoordinate) : Except Unit CartesianCoordinate := do
  let r := _earthradius + self.height
  let lon ← pyval self.lon
  let lat ← pyval self.lat
  let cosx := Real.cos (_pi_180 * lon)
  let cosy := Real.cos (_pi_180 * lat)
  let sinx := Real.sin (_pi_180 * lon)
  let siny := Real.sin (_pi_180 * lat)
  pure ⟨r * cosy * cosx, r * cosy * sinx, r * siny⟩

/-- `GeographicCoordinate.to_mercator`: `MercatorCoordinate(lon * _originshift_180,
log(tan((90 + lat) * _pi_360)) / _pi_180 * _originshift_180)`.  Both arguments
use the raw attributes, so an unset `lon` or `lat` raises. -/
noncomputable def GeographicCoordinate.to_mercator
    (self : GeographicCoordinate) : Except Unit MercatorCoordinate := do
  let lon ← pyval self.lon
  let lat ← pyval self.lat
  pure ⟨some (lon * _originshift_180),
        some (Real.log (Real.tan ((90 + lat) * _pi_360)) / _pi_180 * _originshift_180)⟩

/-- `MercatorCoordinate.to_geographic`: guarded by explicit `None` tests, so
unset components propagate as unset and nothing raises.  The height defaults
to `0.0`. -/
noncomputable def MercatorCoordinate.to_geographic
    (self : MercatorCoordinate) : GeographicCoordinate :=
  ⟨self.x.map (fun x => x * _180_originshift),
   self.y.map (fun y =>
     (2 * Real.arctan (Real.exp (y * _180_originshift * _pi_180)) - _pi_2) * _180_pi),
   0⟩

/-- `MercatorCoordinate.to_tile(zoom)`: `res = _initialresolution / 2 ** zoom`;
`transform(v) = int(ceil(((v + _originshift) / res) / _tilesize) - 1)`;
result `TileCoordinate(zoom, transform(x), (2 ** zoom - 1) - transform(y))`.
`transform` uses the raw attributes, so an unset `x` or `y` raises. -/
noncomputable def MercatorCoordinate.to_tile
    (self : MercatorCoordinate) (zoom : ℕ) : Except Unit TileCoordinate := do
  let res := _initialresolution / 2 ^ zoom
  let mx ← pyval self.x
  let my ← pyval self.y
  let transform : ℝ → ℤ := fun v => ⌈((v + _originshift) / res) / _tilesize⌉ - 1
  pure ⟨zoom, some (transform mx), some ((2 ^ zoom - 1) - transform my)⟩

/-- `TileCoordinate.to_mercator`: `res = _initialresolution / 2 ** self.zoom`;
`x * _tilesize * res - _originshift` and
`(2 ** zoom - y) * _tilesize * res - _originshift`, each guarded by an explicit
`None` test, so unset components propagate as unset. -/
noncomputable def TileCoordinate.to_mercator (self : TileCoordinate) : MercatorCoordinate :=
  let res := _initialresolution / 2 ^ self.zoom
  ⟨self.x.map (fun x => (x : ℝ) * _tilesize * res - _originshift),
   self.y.map (fun y => ((2 ^ self.zoom - y : ℤ) : ℝ) * _tilesize * res - _originshift)⟩

/-- `GeographicBB(min_lon=None, min_lat=None, max_lon=None, max_lat=None)`:
a bounding box defined by two geographic coordinates. -/
structure GeographicBB where
  min : GeographicCoordinate
  max : GeographicCoordinate

/-- The `GeographicBB` constructor:
`min = GeographicCoordinate(min_lon, min_lat)`,
`max = GeographicCoordinate(max_lon, max_lat)` (heights default to `0.0`). -/
noncomputable def GeographicBB.mk' (min_lon min_lat max_lon max_lat : Option ℝ) : GeographicBB :=
  ⟨⟨min_lon, min_lat, 0⟩, ⟨max_lon, max_lat, 0⟩⟩

open Classical in
/-- Python comparison `a <= b` of two possibly-unset values: raises when either
side is unset. -/
noncomputable def pyLE (a b : Option ℝ) : Except Unit Bool :=
  match a, b with
  | some x, some y => Except.ok (decide (x ≤ y))
  | _, _ => Except.error ()

open Classical in
/-- Python comparison `a >= b` of two possibly-unset values. -/
noncomputable def pyGE (a b : Option ℝ) : Except Unit Bool :=
  match a, b with
  | some x, some y => Except.ok (decide (y ≤ x))
  | _, _ => Except.error ()

/-- The short-circuiting test
`self.min.lon <= other.max.lon and self.max.lon >= other.min.lon and
self.min.lat <= other.max.lat and self.max.lat >= other.min.lat`
from `GeographicBB.intersection`. -/
noncomputable def GeographicBB.intersects (self other : GeographicBB) : Except Unit Bool := do
  if !(← pyLE self.min.lon other.max.lon) then return false
  if !(← pyGE self.max.lon other.min.lon) then return false
  if !(← pyLE self.min.lat other.max.lat) then return false
  pyGE self.max.lat other.min.lat

/-- Python `max(a, b)` of two possibly-unset values: raises when either is
unset (comparing `None` raises). -/
noncomputable def pyMax (a b : Option ℝ) : Except Unit ℝ :=
  match a, b with
  | some x, some y => Except.ok (Max.max x y)
  | _, _ => Except.error ()

/-- Python `min(a, b)` of two possibly-unset values. -/
noncomputable def pyMin (a b : Option ℝ) : Except Unit ℝ :=
  match a, b with
  | some x, some y => Except.ok (Min.min x y)
  | _, _ => Except.error ()

/-- Termination measure for `GeographicBB.intersection`: the wrap-correcting
recursion replaces `max.lon` by `max.lon - 360` and only fires when
`max.lon > 180`. -/
noncomputable def geoWrapMeasure (b : GeographicBB) : ℕ :=
  match b.max.lon with
  | none => 0
  | some v => (⌈v⌉).toNat

open Classical in
/-- `GeographicBB.intersection(other)`: if the ranges overlap, the
component-wise min/max box; `elif self.max.lon > 180.0`, retry with this box
normalized to `GeographicBB(-180, min.lat, max.lon - 360.0, max.lat)`;
otherwise Python falls through and returns `None`. -/
noncomputable def GeographicBB.intersection
    (self other : GeographicBB) : Except Unit (Option GeographicBB) :=
  match GeographicBB.intersects self other with
  | Except.error e => Except.error e
  | Except.ok true => do
      let a ← pyMax self.min.lon other.min.lon
      let b ← pyMax self.min.lat other.min.lat
      let c ← pyMin self.max.lon other.max.lon
      let d ← pyMin self.max.lat other.max.lat
      pure (some (GeographicBB.mk' (some a) (some b) (some c) (some d)))
  | Except.ok false =>
      match h : self.max.lon with
      | none => Except.error ()
      | some maxlon =>
          if 180 < maxlon then
            GeographicBB.intersection
              (GeographicBB.mk' (some (-180)) self.min.lat (some (maxlon - 360)) self.max.lat)
              other
          else
            Except.ok none
termination_by geoWrapMeasure self
decreasing_by
  simp only [geoWrapMeasure, GeographicBB.mk', h]
  have h1 : (180 : ℤ) < ⌈maxlon⌉ := by
    rw [Int.lt_ceil]; exact_mod_cast ‹(180 : ℝ) < maxlon›
  have h2 : ⌈maxlon - (360 : ℝ)⌉ = ⌈maxlon⌉ - 360 := by
    exact_mod_cast Int.ceil_sub_int maxlon 360
  omega

instance {ε α : Type} [DecidableEq ε] [DecidableEq α] : DecidableEq (Except ε α) := fun u v =>
  match u, v with
  | Except.ok a, Except.ok b =>
      if h : a = b then Decidable.isTrue (by rw [h])
      else Decidable.isFalse (fun hc => h (Except.ok.inj hc))
  | Except.error a, Except.error b =>
      if h : a = b then Decidable.isTrue (by rw [h])
      else Decidable.isFalse (fun hc => h (Except.error.inj hc))
  | Except.ok _, Except.error _ => Decidable.isFalse (fun hc => Except.noConfusion hc)
  | Except.error _, Except.ok _ => Decidable.isFalse (fun hc => Except.noConfusion hc)

theorem pyRangeLen_one (a b : ℤ) : pyRangeLen a b 1 = (b - a).toNat := by
  simp only [pyRangeLen, if_pos (by omega : (0:ℤ) < 1)]
  have he : b - a + 1 - 1 = b - a := by ring
  rw [he, Int.ediv_one]

theorem mem_pyRange_one {a b p : ℤ} : p ∈ pyRange a b 1 ↔ a ≤ p ∧ p < b := by
  rw [pyRange, pyRangeLen_one]
  constructor
  · intro hp
    obtain ⟨i, hi, hip⟩ := List.mem_map.mp hp
    have h1 : i < (b - a).toNat := List.mem_range.mp hi
    omega
  · rintro ⟨h1, h2⟩
    refine List.mem_map.mpr ⟨(p - a).toNat, List.mem_range.mpr (by omega), ?_⟩
    rw [Int.toNat_of_nonneg (by omega : (0:ℤ) ≤ p - a)]
    ring

theorem pyRange_two (a : ℤ) : pyRange a (a + 2) 1 = [a, a + 1] := by
  have hlen : pyRangeLen a (a + 2) 1 = 2 := by
    rw [pyRangeLen_one]; omega
  rw [pyRange, hlen]
  norm_num [List.range_succ]

theorem griditer_two (x y : ℤ) :
    griditer x y 2 none 1 = [(x, y), (x, y + 1), (x + 1, y), (x + 1, y + 1)] := by
  simp [griditer, pyRange_two]

theorem mem_griditer_one {x y n : ℤ} {p : ℤ × ℤ} :
    p ∈ griditer x y n none 1 ↔ (x ≤ p.1 ∧ p.1 < x + n) ∧ (y ≤ p.2 ∧ p.2 < y + n) := by
  obtain ⟨u, v⟩ := p
  simp only [griditer, Option.getD, List.mem_flatMap, List.mem_map]
  constructor
  · rintro ⟨a, ha, b, hb, hab⟩
    obtain ⟨rfl, rfl⟩ := Prod.mk.injEq .. ▸ hab
    exact ⟨mem_pyRange_one.mp ha, mem_pyRange_one.mp hb⟩
  · rintro ⟨hu, hv⟩
    exact ⟨u, mem_pyRange_one.mpr hu, v, mem_pyRange_one.mpr hv, rfl⟩

theorem tile_zoom_in_eq (z : ℕ) (x y : ℤ) :
    TileCoordinate.zoom_in ⟨z, some x, some y⟩ =
      Except.ok [⟨z + 1, some (x * 2), some (y * 2)⟩,
                 ⟨z + 1, some (x * 2), some (y * 2 + 1)⟩,
                 ⟨z + 1, some (x * 2 + 1), some (y * 2)⟩,
                 ⟨z + 1, some (x * 2 + 1), some (y * 2 + 1)⟩] := by
  simp only [TileCoordinate.zoom_in, pyval, griditer_two]
  rfl

theorem region_zoom_in_eq (z : ℕ) (x y : ℤ) (k : ℕ) :
    RegionCoordinate.zoom_in ⟨z, x, y, k⟩ =
      [⟨z + 1, x * 2, y * 2, k⟩,
       ⟨z + 1, x * 2, y * 2 + 1, k⟩,
       ⟨z + 1, x * 2 + 1, y * 2, k⟩,
       ⟨z + 1, x * 2 + 1, y * 2 + 1, k⟩] := by
  simp [RegionCoordinate.zoom_in, griditer_two]

theorem mem_get_tiles {z : ℕ} {x y : ℤ} {k : ℕ} {t : TileCoordinate} :
    t ∈ RegionCoordinate.get_tiles ⟨z, x, y, k⟩ ↔
      ∃ a b : ℤ, t = ⟨z, some a, some b⟩ ∧
        x * 2 ^ k ≤ a ∧ a < x * 2 ^ k + 2 ^ k ∧
        y * 2 ^ k ≤ b ∧ b < y * 2 ^ k + 2 ^ k := by
  simp only [RegionCoordinate.get_tiles, RegionCoordinate.tiles_per_row, List.mem_map]
  constructor
  · rintro ⟨p, hp, rfl⟩
    obtain ⟨⟨h1, h2⟩, h3, h4⟩ := mem_griditer_one.mp hp
    exact ⟨p.1, p.2, rfl, h1, h2, h3, h4⟩
  · rintro ⟨a, b, rfl, h1, h2, h3, h4⟩
    exact ⟨(a, b), mem_griditer_one.mpr ⟨⟨h1, h2⟩, h3, h4⟩, rfl⟩

theorem region_children_tiles_iff (z : ℕ) (x y : ℤ) (k : ℕ) (t : TileCoordinate) :
    t ∈ (RegionCoordinate.zoom_in ⟨z, x, y, k⟩).flatMap RegionCoordinate.get_tiles ↔
      ∃ a b : ℤ, t = ⟨z + 1, some a, some b⟩ ∧
        2 * (x * 2 ^ k) ≤ a ∧ a < 2 * (x * 2 ^ k) + 2 * 2 ^ k ∧
        2 * (y * 2 ^ k) ≤ b ∧ b < 2 * (y * 2 ^ k) + 2 * 2 ^ k := by
  have e1 : x * 2 * (2 : ℤ) ^ k = 2 * (x * 2 ^ k) := by ring
  have e2 : (x * 2 + 1) * (2 : ℤ) ^ k = 2 * (x * 2 ^ k) + 2 ^ k := by ring
  have e3 : y * 2 * (2 : ℤ) ^ k = 2 * (y * 2 ^ k) := by ring
  have e4 : (y * 2 + 1) * (2 : ℤ) ^ k = 2 * (y * 2 ^ k) + 2 ^ k := by ring
  have hP : (0 : ℤ) < 2 ^ k := by positivity
  rw [region_zoom_in_eq]
  simp only [List.flatMap_cons, List.flatMap_nil, List.append_nil, List.mem_append]
  constructor
  · rintro (h | h | h | h) <;>
      obtain ⟨a, b, rfl, h1, h2, h3, h4⟩ := mem_get_tiles.mp h <;>
      exact ⟨a, b, rfl, by omega, by omega, by omega, by omega⟩
  · rintro ⟨a, b, rfl, h1, h2, h3, h4⟩
    by_cases ha : a < 2 * (x * 2 ^ k) + 2 ^ k <;> by_cases hb : b < 2 * (y * 2 ^ k) + 2 ^ k
    · exact Or.inl (mem_get_tiles.mpr ⟨a, b, rfl, by omega, by omega, by omega, by omega⟩)
    · exact Or.inr (Or.inl (mem_get_tiles.mpr ⟨a, b, rfl, by omega, by omega, by omega, by omega⟩))
    · exact Or.inr (Or.inr (Or.inl
        (mem_get_tiles.mpr ⟨a, b, rfl, by omega, by omega, by omega, by omega⟩)))
    · exact Or.inr (Or.inr (Or.inr
        (mem_get_tiles.mpr ⟨a, b, rfl, by omega, by omega, by omega, by omega⟩)))

theorem parent_tiles_refined_iff (z : ℕ) (x y : ℤ) (k : ℕ) (t : TileCoordinate) :
    (∃ p ∈ RegionCoordinate.get_tiles ⟨z, x, y, k⟩,
        ∃ l, TileCoordinate.zoom_in p = Except.ok l ∧ t ∈ l) ↔
      ∃ a b : ℤ, t = ⟨z + 1, some a, some b⟩ ∧
        2 * (x * 2 ^ k) ≤ a ∧ a < 2 * (x * 2 ^ k) + 2 * 2 ^ k ∧
        2 * (y * 2 ^ k) ≤ b ∧ b < 2 * (y * 2 ^ k) + 2 * 2 ^ k := by
  constructor
  · rintro ⟨p, hp, l, hl, htl⟩
    obtain ⟨pa, pb, rfl, h1, h2, h3, h4⟩ := mem_get_tiles.mp hp
    rw [tile_zoom_in_eq] at hl
    obtain rfl := Except.ok.inj hl
    simp only [List.mem_cons, List.not_mem_nil, or_false] at htl
    rcases htl with rfl | rfl | rfl | rfl <;>
      exact ⟨_, _, rfl, by omega, by omega, by omega, by omega⟩
  · rintro ⟨a, b, rfl, h1, h2, h3, h4⟩
    obtain ⟨pa, da, hda, hpa⟩ : ∃ pa da : ℤ, (da = 0 ∨ da = 1) ∧ a = pa * 2 + da := by
      rcases Int.even_or_odd a with ⟨r, hr⟩ | ⟨r, hr⟩
      · exact ⟨r, 0, Or.inl rfl, by omega⟩
      · exact ⟨r, 1, Or.inr rfl, by omega⟩
    obtain ⟨pb, db, hdb, hpb⟩ : ∃ pb db : ℤ, (db = 0 ∨ db = 1) ∧ b = pb * 2 + db := by
      rcases Int.even_or_odd b with ⟨r, hr⟩ | ⟨r, hr⟩
      · exact ⟨r, 0, Or.inl rfl, by omega⟩
      · exact ⟨r, 1, Or.inr rfl, by omega⟩
    refine ⟨⟨z, some pa, some pb⟩,
      mem_get_tiles.mpr ⟨pa, pb, rfl, by omega, by omega, by omega, by omega⟩,
      _, tile_zoom_in_eq z pa pb, ?_⟩
    simp only [List.mem_cons, List.not_mem_nil, or_false]
    rcases hda with rfl | rfl <;> rcases hdb with rfl | rfl
    · exact Or.inl (by simp [hpa, hpb])
    · exact Or.inr (Or.inl (by simp [hpa, hpb]))
    · exact Or.inr (Or.inr (Or.inl (by simp [hpa, hpb])))
    · exact Or.inr (Or.inr (Or.inr (by simp [hpa, hpb])))

/-- C3 (corrected): `TileCoordinate.zoom_in` on a tile with set coordinates
`(x, y)` yields exactly the four tiles at zoom `z + 1` covering the 2×2 block,
but in the order `(2x, 2y), (2x, 2y + 1), (2x + 1, 2y), (2x + 1, 2y + 1)` —
the `y` coordinate varies fastest, because `itertools.product` iterates its
second factor (the row range) innermost. -/
theorem claimC3 (z : ℕ) (x y : ℤ) :
    TileCoordinate.zoom_in ⟨z, some x, some y⟩ =
      Except.ok [⟨z + 1, some (x * 2), some (y * 2)⟩,
                 ⟨z + 1, some (x * 2), some (y * 2 + 1)⟩,
                 ⟨z + 1, some (x * 2 + 1), some (y * 2)⟩,
                 ⟨z + 1, some (x * 2 + 1), some (y * 2 + 1)⟩] :=
  tile_zoom_in_eq z x y

/-- C3's claimed order is false on the code: at tile `(zoom 0, x 0, y 0)` the
second child produced is `(0, 1)` (x slowest), not `(1, 0)` as the claim's
`(2x, 2y), (2x+1, 2y), (2x, 2y+1), (2x+1, 2y+1)` order demands. -/
theorem claimC3_counterexample :
    TileCoordinate.zoom_in ⟨0, some 0, some 0⟩ ≠
      Except.ok [⟨1, some 0, some 0⟩, ⟨1, some 1, some 0⟩,
                 ⟨1, some 0, some 1⟩, ⟨1, some 1, some 1⟩] := by
  decide

/-- C8 (confirmed): for a `RegionCoordinate(z, x, y, k)` with valid arguments,
`zoom_in` yields exactly four regions at zoom `z + 1` with the same
`log_tiles_per_row`, and a tile belongs to some child's `get_tiles` exactly
when it is a zoom-`(z + 1)` child (under `TileCoordinate.zoom_in`) of some
tile of the parent's `get_tiles`. -/
theorem claimC8 (z : ℕ) (x y : ℤ) (k : ℕ)
    (hk : RegionCoordinate.valid ⟨z, x, y, k⟩) :
    ((RegionCoordinate.zoom_in ⟨z, x, y, k⟩).length = 4 ∧
      ∀ r ∈ RegionCoordinate.zoom_in ⟨z, x, y, k⟩,
        r.zoom = z + 1 ∧ r.log_tiles_per_row = k) ∧
    ∀ t : TileCoordinate,
      (t ∈ (RegionCoordinate.zoom_in ⟨z, x, y, k⟩).flatMap RegionCoordinate.get_tiles ↔
        ∃ p ∈ RegionCoordinate.get_tiles ⟨z, x, y, k⟩,
          ∃ l, TileCoordinate.zoom_in p = Except.ok l ∧ t ∈ l) := by
  refine ⟨⟨by rw [region_zoom_in_eq]; rfl, ?_⟩, ?_⟩
  · intro r hr
    rw [region_zoom_in_eq] at hr
    simp only [List.mem_cons, List.not_mem_nil, or_false] at hr
    rcases hr with rfl | rfl | rfl | rfl <;> exact ⟨rfl, rfl⟩
  · intro t
    exact (region_children_tiles_iff z x y k t).trans
      (parent_tiles_refined_iff z x y k t).symm

/-- Witness for C8 at the concrete region `RegionCoordinate(0, 0, 0, 0)`:
its precondition holds and the subdivision property is obtained from the
theorem itself. -/
theorem claimC8_witness :
    RegionCoordinate.valid ⟨0, 0, 0, 0⟩ ∧
    (((RegionCoordinate.zoom_in ⟨0, 0, 0, 0⟩).length = 4 ∧
      ∀ r ∈ RegionCoordinate.zoom_in ⟨0, 0, 0, 0⟩,
        r.zoom = 0 + 1 ∧ r.log_tiles_per_row = 0) ∧
     ∀ t : TileCoordinate,
      (t ∈ (RegionCoordinate.zoom_in ⟨0, 0, 0, 0⟩).flatMap RegionCoordinate.get_tiles ↔
        ∃ p ∈ RegionCoordinate.get_tiles ⟨0, 0, 0, 0⟩,
          ∃ l, TileCoordinate.zoom_in p = Except.ok l ∧ t ∈ l)) :=
  ⟨by show (0 : ℕ) < 5; decide, claimC8 0 0 0 0 (by show (0 : ℕ) < 5; decide)⟩

/-- C10 (confirmed): subdivision preserves grid validity.  For a tile with set
coordinates and for a region, if `0 ≤ x, y < 2 ^ zoom` then `zoom_in` yields
four coordinates at `zoom + 1` whose coordinates lie in `[0, 2 ^ (zoom + 1))`. -/
theorem claimC10 (z : ℕ) (x y : ℤ) (k : ℕ)
    (hx0 : 0 ≤ x) (hx1 : x < 2 ^ z) (hy0 : 0 ≤ y) (hy1 : y < 2 ^ z) :
    (∃ l, TileCoordinate.zoom_in ⟨z, some x, some y⟩ = Except.ok l ∧ l.length = 4 ∧
      ∀ c ∈ l, c.zoom = z + 1 ∧ ∃ cx cy : ℤ, c.x = some cx ∧ c.y = some cy ∧
        0 ≤ cx ∧ cx < 2 ^ (z + 1) ∧ 0 ≤ cy ∧ cy < 2 ^ (z + 1)) ∧
    ((RegionCoordinate.zoom_in ⟨z, x, y, k⟩).length = 4 ∧
      ∀ r ∈ RegionCoordinate.zoom_in ⟨z, x, y, k⟩, r.zoom = z + 1 ∧
        0 ≤ r.x ∧ r.x < 2 ^ (z + 1) ∧ 0 ≤ r.y ∧ r.y < 2 ^ (z + 1)) := by
  have hp : (2 : ℤ) ^ (z + 1) = 2 * 2 ^ z := by ring
  constructor
  · refine ⟨_, tile_zoom_in_eq z x y, rfl, ?_⟩
    intro c hc
    simp only [List.mem_cons, List.not_mem_nil, or_false] at hc
    rcases hc with rfl | rfl | rfl | rfl <;>
      exact ⟨rfl, _, _, rfl, rfl, by omega, by omega, by omega, by omega⟩
  · refine ⟨by rw [region_zoom_in_eq]; rfl, ?_⟩
    intro r hr
    rw [region_zoom_in_eq] at hr
    simp only [List.mem_cons, List.not_mem_nil, or_false] at hr
    rcases hr with rfl | rfl | rfl | rfl <;>
      refine ⟨rfl, ?_, ?_, ?_, ?_⟩ <;> dsimp only <;> omega

/-- Witness for C10 at `zoom 0`, `x = y = 0`, `k = 0`: the range preconditions
hold and the conclusion is obtained from the theorem itself. -/
theorem claimC10_witness :
    ((0 : ℤ) ≤ 0 ∧ (0 : ℤ) < 2 ^ 0) ∧
    ((∃ l, TileCoordinate.zoom_in ⟨0, some 0, some 0⟩ = Except.ok l ∧ l.length = 4 ∧
      ∀ c ∈ l, c.zoom = 0 + 1 ∧ ∃ cx cy : ℤ, c.x = some cx ∧ c.y = some cy ∧
        0 ≤ cx ∧ cx < 2 ^ (0 + 1) ∧ 0 ≤ cy ∧ cy < 2 ^ (0 + 1)) ∧
    ((RegionCoordinate.zoom_in ⟨0, 0, 0, 0⟩).length = 4 ∧
      ∀ r ∈ RegionCoordinate.zoom_in ⟨0, 0, 0, 0⟩, r.zoom = 0 + 1 ∧
        0 ≤ r.x ∧ r.x < 2 ^ (0 + 1) ∧ 0 ≤ r.y ∧ r.y < 2 ^ (0 + 1))) :=
  ⟨⟨by decide, by decide⟩,
   claimC10 0 0 0 0 (by decide) (by decide) (by decide) (by decide)⟩

theorem bind_ok_eq {ε α β : Type} (a : α) (f : α → Except ε β) :
    (Except.ok a : Except ε α) >>= f = f a := rfl

theorem pure_eq_ok {ε α : Type} (a : α) : (pure a : Except ε α) = Except.ok a := rfl

theorem bind_error_eq {ε α β : Type} (e : ε) (f : α → Except ε β) :
    (Except.error e : Except ε α) >>= f = Except.error e := rfl

theorem intersection_run (self other : GridBB) :
    self.intersection other =
      if self.min.x ≤ other.max.x ∧ other.min.x ≤ self.max.x ∧
         self.min.y ≤ other.max.y ∧ other.min.y ≤ self.max.y
      then Except.error () else Except.ok none := by
  unfold GridBB.intersection
  by_cases h : self.min.x ≤ other.max.x ∧ other.min.x ≤ self.max.x ∧
      self.min.y ≤ other.max.y ∧ other.min.y ≤ self.max.y <;>
    simp [h, GridBB.init, GridCoordinate.init, bind_ok_eq, bind_error_eq, pure_eq_ok]

theorem intersections_run (self other : GridBB) :
    self.intersections other =
      if (self.min.x ≤ other.max.x ∧ other.min.x ≤ self.max.x ∧
          self.min.y ≤ other.max.y ∧ other.min.y ≤ self.max.y) ∨
         (2 : ℤ) ^ self.zoom ≤ self.max.x
      then Except.error () else Except.ok [] := by
  unfold GridBB.intersections
  rw [intersection_run]
  by_cases h1 : self.min.x ≤ other.max.x ∧ other.min.x ≤ self.max.x ∧
      self.min.y ≤ other.max.y ∧ other.min.y ≤ self.max.y <;>
    by_cases h2 : (2 : ℤ) ^ self.zoom ≤ self.max.x <;>
      simp [h1, h2, GridBB.init, GridCoordinate.init, bind_ok_eq, bind_error_eq, pure_eq_ok]

/-- C4 (code_bug): the claim describes the intended intersection algebra, but
the code cannot exhibit it.  `GridBB.__init__` instantiates the abstract
`GridCoordinate` (metaclass `ABCMeta`, abstract method `zoom_in`), so every
`GridBB(...)` call raises `TypeError`; consequently `intersections` raises —
from `intersection`'s overlap branch or from constructing the remapped box —
exactly when the direct ranges overlap or `max.x ≥ 2 ^ zoom`, and otherwise
returns the empty list.  In particular the spec's wraparound example raises
instead of yielding one result. -/
theorem claimC4 :
    (∀ (zoom : ℕ) (min_x min_y max_x max_y : ℤ),
      GridBB.init zoom min_x min_y max_x max_y = Except.error ()) ∧
    (∀ self other : GridBB,
      self.intersections other =
        if (self.min.x ≤ other.max.x ∧ other.min.x ≤ self.max.x ∧
            self.min.y ≤ other.max.y ∧ other.min.y ≤ self.max.y) ∨
           (2 : ℤ) ^ self.zoom ≤ self.max.x
        then Except.error () else Except.ok []) ∧
    (⟨2, ⟨2, 3, 0⟩, ⟨2, 5, 1⟩⟩ : GridBB).intersections ⟨2, ⟨2, 0, 0⟩, ⟨2, 1, 1⟩⟩ =
      Except.error () :=
  ⟨fun _ _ _ _ _ => rfl, intersections_run, by decide⟩

/-- C5 (code_bug): `is_inside` is a pure test and does run, but whenever it
returns `True` for a tile with set coordinates at the box's zoom, the claimed
counterpart `intersections` on the degenerate one-tile box raises `TypeError`
(see C4) instead of returning a non-empty list — and the one-tile `GridBB`
argument cannot even be constructed.  So the agreement claimed between the
two operations fails everywhere it would bite. -/
theorem claimC5 (b : GridBB) (tx ty : ℤ)
    (h : b.is_inside ⟨b.zoom, some tx, some ty⟩ = Except.ok true) :
    b.intersections ⟨b.zoom, ⟨b.zoom, tx, ty⟩, ⟨b.zoom, tx, ty⟩⟩ = Except.error () ∧
    GridBB.init b.zoom tx ty tx ty = Except.error () := by
  refine ⟨?_, rfl⟩
  rw [intersections_run]
  dsimp only
  unfold GridBB.is_inside at h
  by_cases hy : b.min.y ≤ ty ∧ ty ≤ b.max.y
  · simp only [pyval, bind_ok_eq, if_pos hy, pure_eq_ok, Except.ok.injEq,
      Bool.or_eq_true, Bool.and_eq_true, decide_eq_true_eq] at h
    rw [if_pos ?hc]
    case hc =>
      rcases h with ⟨h1, h2⟩ | ⟨h1, -⟩
      · exact Or.inl ⟨h1, h2, hy.1, hy.2⟩
      · exact Or.inr (by omega)
  · simp only [pyval, bind_ok_eq, if_neg hy, pure_eq_ok] at h
    exact absurd h (by simp)

/-- Witness for C5 at the box `(0,0)-(1,1)` at zoom 1 and the tile
`(zoom 1, x 0, y 0)`: `is_inside` returns `True`, yet `intersections` on the
degenerate one-tile box raises. -/
theorem claimC5_witness :
    GridBB.is_inside ⟨1, ⟨1, 0, 0⟩, ⟨1, 1, 1⟩⟩ ⟨1, some 0, some 0⟩ = Except.ok true ∧
    ((⟨1, ⟨1, 0, 0⟩, ⟨1, 1, 1⟩⟩ : GridBB).intersections ⟨1, ⟨1, 0, 0⟩, ⟨1, 0, 0⟩⟩ =
        Except.error () ∧
      GridBB.init 1 0 0 0 0 = Except.error ()) :=
  ⟨by decide, claimC5 ⟨1, ⟨1, 0, 0⟩, ⟨1, 1, 1⟩⟩ 0 0 (by decide)⟩

/-- The claimed quad-key digit for bit position `k` (mask `1 << k`):
`(1 if x & mask else 0) + (2 if y & mask else 0)`. -/
def quadDigit (x y : ℤ) (k : ℕ) : ℕ :=
  (if Int.land x ((1 : ℤ) <<< (k : ℤ)) ≠ 0 then 1 else 0) +
  (if Int.land y ((1 : ℤ) <<< (k : ℤ)) ≠ 0 then 2 else 0)

/-- The decimal character of a digit `d ≤ 9`. -/
def quadChar (d : ℕ) : Char := Char.ofNat (48 + d)

theorem quadStep_append (x y : ℤ) (s : String) (i : ℤ) :
    (quadStep x y s i).data = s.data ++ (quadStep x y ("" : String) i).data := by
  simp [quadStep]

theorem foldl_quadStep_data (x y : ℤ) :
    ∀ (l : List ℤ) (s : String),
      (l.foldl (quadStep x y) s).data =
        s.data ++ l.flatMap (fun i => (quadStep x y ("" : String) i).data) := by
  intro l
  induction l with
  | nil => intro s; simp
  | cons i l ih =>
      intro s
      rw [List.foldl_cons, List.flatMap_cons, ih (quadStep x y s i),
        quadStep_append, List.append_assoc]

theorem quadStep_digit_data (x y : ℤ) (i : ℤ) (hi : 1 ≤ i) :
    (quadStep x y ("" : String) i).data = [quadChar (quadDigit x y (i - 1).toNat)] := by
  have hcast : (((i - 1).toNat : ℕ) : ℤ) = i - 1 := Int.toNat_of_nonneg (by omega)
  unfold quadStep quadDigit quadChar
  rw [hcast]
  by_cases h1 : Int.land x ((1 : ℤ) <<< (i - 1)) ≠ 0 <;>
    by_cases h2 : Int.land y ((1 : ℤ) <<< (i - 1)) ≠ 0
  · simp only [if_pos h1, if_pos h2]; decide
  · simp only [if_pos h1, if_neg h2]; decide
  · simp only [if_neg h1, if_pos h2]; decide
  · simp only [if_neg h1, if_neg h2]; decide

theorem pyRangeLen_desc (z : ℕ) : pyRangeLen (z : ℤ) 0 (-1) = z := by
  simp only [pyRangeLen]
  rw [if_neg (by omega), if_pos (by omega)]
  have he : ((z : ℤ) - 0 + - -1 - 1) / - -1 = (z : ℤ) := by norm_num
  rw [he]
  omega

theorem pyRange_desc_succ (z : ℕ) :
    pyRange ((z + 1 : ℕ) : ℤ) 0 (-1) = ((z + 1 : ℕ) : ℤ) :: pyRange (z : ℤ) 0 (-1) := by
  rw [pyRange, pyRange, pyRangeLen_desc, pyRangeLen_desc, List.range_succ_eq_map,
    List.map_cons, List.map_map]
  refine List.cons_eq_cons.mpr ⟨by push_cast; ring, ?_⟩
  apply List.map_congr_left
  intro i _
  simp only [Function.comp_apply]
  push_cast
  ring

theorem encode_data (z : ℕ) (x y : ℤ) :
    (GridCoordinate.encode_quad_tree ⟨z, x, y⟩).data =
      (List.range z).map (fun j => quadChar (quadDigit x y (z - 1 - j))) := by
  induction z with
  | zero => simp [GridCoordinate.encode_quad_tree, pyRange, pyRangeLen]
  | succ z ih =>
      unfold GridCoordinate.encode_quad_tree at ih ⊢
      dsimp only at ih ⊢
      have ihf : (pyRange (z : ℤ) 0 (-1)).flatMap (fun i => (quadStep x y ("" : String) i).data) =
          (List.range z).map (fun j => quadChar (quadDigit x y (z - 1 - j))) := by
        rw [foldl_quadStep_data] at ih
        simpa using ih
      rw [pyRange_desc_succ, List.foldl_cons, foldl_quadStep_data,
        quadStep_append, ihf, List.range_succ_eq_map, List.map_cons, List.map_map,
        quadStep_digit_data x y ((z + 1 : ℕ) : ℤ) (by omega)]
      simp only [String.data, List.nil_append]
      refine List.cons_eq_cons.mpr ⟨?_, ?_⟩
      · have he : (((z + 1 : ℕ) : ℤ) - 1).toNat = z + 1 - 1 - 0 := by omega
        rw [he]
      · apply List.map_congr_left
        intro i _
        simp only [Function.comp_apply]
        have he : z - 1 - i = z + 1 - 1 - (i + 1) := by omega
        rw [he]

theorem quadDigit_le_three (x y : ℤ) (k : ℕ) : quadDigit x y k ≤ 3 := by
  unfold quadDigit
  by_cases h1 : Int.land x ((1 : ℤ) <<< (k : ℤ)) ≠ 0 <;>
    by_cases h2 : Int.land y ((1 : ℤ) <<< (k : ℤ)) ≠ 0 <;>
      simp [h1, h2]

/-- C7 (confirmed): `encode_quad_tree` produces a string of exactly `zoom`
digits, most significant first: the character at index `j` is the decimal
digit `(1 if x & mask else 0) + (2 if y & mask else 0)` for
`mask = 1 << (zoom - 1 - j)`; every character is one of `0`–`3`; the key at
zoom 0 is empty; and encoding `(zoom 1, x 1, y 1)` yields `"3"`. -/
theorem claimC7 :
    (∀ (z : ℕ) (x y : ℤ),
      (GridCoordinate.encode_quad_tree ⟨z, x, y⟩).length = z ∧
      (GridCoordinate.encode_quad_tree ⟨z, x, y⟩).data =
        (List.range z).map (fun j => quadChar (quadDigit x y (z - 1 - j))) ∧
      ∀ c ∈ (GridCoordinate.encode_quad_tree ⟨z, x, y⟩).data,
        c = '0' ∨ c = '1' ∨ c = '2' ∨ c = '3') ∧
    (∀ x y : ℤ, GridCoordinate.encode_quad_tree ⟨0, x, y⟩ = "") ∧
    GridCoordinate.encode_quad_tree ⟨1, 1, 1⟩ = "3" := by
  refine ⟨?_, ?_, by decide⟩
  · intro z x y
    refine ⟨?_, encode_data z x y, ?_⟩
    · show (GridCoordinate.encode_quad_tree ⟨z, x, y⟩).data.length = z
      rw [encode_data]
      simp
    · intro c hc
      rw [encode_data] at hc
      obtain ⟨j, -, rfl⟩ := List.mem_map.mp hc
      have h3 := quadDigit_le_three x y (z - 1 - j)
      interval_cases h : quadDigit x y (z - 1 - j) <;> simp [quadChar, h]
  · intro x y
    have h := encode_data 0 x y
    simp only [List.range_zero, List.map_nil] at h
    exact String.ext h

/-- Witness for C7's per-character clause at the concrete key
`encode_quad_tree (zoom 1, x 1, y 1) = "3"`: its character is one of `0`–`3`,
obtained from the theorem itself. -/
theorem claimC7_witness : '3' = '0' ∨ '3' = '1' ∨ '3' = '2' ∨ '3' = '3' :=
  (claimC7.1 1 1 1).2.2 '3' (by decide)

/-- C2 (corrected): only `MercatorCoordinate.to_geographic` and
`TileCoordinate.to_mercator` guard their inputs with `None` tests and
propagate unset components as unset.  `GeographicCoordinate.to_cartesian`,
`GeographicCoordinate.to_mercator` and `MercatorCoordinate.to_tile` use the
raw attributes in arithmetic, so they raise a `TypeError` exactly when a
needed component is unset. -/
theorem claimC2 :
    (∀ m : MercatorCoordinate,
      (m.to_geographic.lon = none ↔ m.x = none) ∧
      (m.to_geographic.lat = none ↔ m.y = none)) ∧
    (∀ t : TileCoordinate,
      (t.to_mercator.x = none ↔ t.x = none) ∧
      (t.to_mercator.y = none ↔ t.y = none)) ∧
    (∀ g : GeographicCoordinate,
      (g.to_cartesian = Except.error () ↔ (g.lon = none ∨ g.lat = none))) ∧
    (∀ g : GeographicCoordinate,
      (g.to_mercator = Except.error () ↔ (g.lon = none ∨ g.lat = none))) ∧
    (∀ (m : MercatorCoordinate) (zoom : ℕ),
      (m.to_tile zoom = Except.error () ↔ (m.x = none ∨ m.y = none))) := by
  refine ⟨?_, ?_, ?_, ?_, ?_⟩
  · rintro ⟨x, y⟩
    cases x <;> cases y <;> simp [MercatorCoordinate.to_geographic]
  · rintro ⟨z, x, y⟩
    cases x <;> cases y <;> simp [TileCoordinate.to_mercator]
  · rintro ⟨lon, lat, h⟩
    cases lon <;> cases lat <;>
      simp [GeographicCoordinate.to_cartesian, pyval, bind_ok_eq, bind_error_eq, pure_eq_ok]
  · rintro ⟨lon, lat, h⟩
    cases lon <;> cases lat <;>
      simp [GeographicCoordinate.to_mercator, pyval, bind_ok_eq, bind_error_eq, pure_eq_ok]
  · rintro ⟨x, y⟩ zoom
    cases x <;> cases y <;>
      simp [MercatorCoordinate.to_tile, pyval, bind_ok_eq, bind_error_eq, pure_eq_ok]

/-- The original C2 is false: converting a geographic coordinate with unset
longitude (and latitude 0) to Mercator raises a `TypeError` (modelled as
`Except.error ()`) instead of propagating the unset component. -/
theorem claimC2_counterexample :
    GeographicCoordinate.to_mercator ⟨none, some 0, 0⟩ = Except.error () := rfl

theorem initialresolution_ne : _initialresolution ≠ 0 := by
  unfold _initialresolution _tilesize
  have h := Real.pi_pos
  positivity

theorem tilesize_ne : _tilesize ≠ 0 := by
  unfold _tilesize
  norm_num

theorem originshift_ne : _originshift ≠ 0 := by
  unfold _originshift
  have h := Real.pi_pos
  positivity

/-- C1 (corrected): the tile→Mercator→tile round trip at the same zoom comes
back with the x coordinate decreased by one and the y coordinate unchanged:
`to_mercator` yields the tile's corner point, which sits exactly on a tile
boundary, and `to_tile`'s `ceil(...) - 1` transform assigns boundary points to
the preceding column.  (For the y axis the same one-tile shift is cancelled by
the `(2 ** zoom - 1) - ...` flip.) -/
theorem claimC1 (z : ℕ) (x y : ℤ) :
    (TileCoordinate.to_mercator ⟨z, some x, some y⟩).to_tile z =
      Except.ok ⟨z, some (x - 1), some y⟩ := by
  have hI := initialresolution_ne
  have hT := tilesize_ne
  have h2 : ((2 : ℝ)) ^ z ≠ 0 := by positivity
  have key : ∀ a : ℤ, (((a : ℝ) * _tilesize * (_initialresolution / 2 ^ z) - _originshift +
      _originshift) / (_initialresolution / 2 ^ z)) / _tilesize = (a : ℝ) := by
    intro a
    field_simp
    ring
  have step1 : TileCoordinate.to_mercator ⟨z, some x, some y⟩ =
      ⟨some ((x : ℝ) * _tilesize * (_initialresolution / 2 ^ z) - _originshift),
       some (((2 ^ z - y : ℤ) : ℝ) * _tilesize * (_initialresolution / 2 ^ z) -
         _originshift)⟩ := rfl
  have step2 : ∀ A B : ℝ, MercatorCoordinate.to_tile ⟨some A, some B⟩ z =
      Except.ok ⟨z, some (⌈((A + _originshift) / (_initialresolution / 2 ^ z)) / _tilesize⌉ - 1),
        some ((2 ^ z - 1) - (⌈((B + _originshift) / (_initialresolution / 2 ^ z)) /
          _tilesize⌉ - 1))⟩ := fun A B => rfl
  rw [step1, step2, key x, key (2 ^ z - y)]
  simp only [Int.ceil_intCast, Except.ok.injEq, TileCoordinate.mk.injEq, Option.some.injEq]
  refine ⟨trivial, trivial, ?_⟩
  ring

/-- The original C1 is false: the tile `(zoom 0, x 0, y 0)` round-trips to
`(zoom 0, x -1, y 0)`, not to itself.  (At `x = 0` this holds bit-exactly in
the Python float semantics as well: the corner Mercator x is exactly
`-_originshift`, the additions cancel exactly, and `ceil(0) - 1 = -1`.) -/
theorem claimC1_counterexample :
    (TileCoordinate.to_mercator ⟨0, some 0, some 0⟩).to_tile 0 ≠
      Except.ok ⟨0, some 0, some 0⟩ := by
  rw [claimC1 0 0 0]
  simp

/-- C9 (confirmed, in the exact-real model of the float formulas): for
`|lat| < 85`, converting `(lon, lat)` to Mercator and back yields `(lon, lat)`
exactly (hence in particular within any floating-point epsilon). -/
theorem claimC9 (lon lat : ℝ) (h : |lat| < 85) :
    ∃ mx my : ℝ,
      GeographicCoordinate.to_mercator ⟨some lon, some lat, 0⟩ =
        Except.ok ⟨some mx, some my⟩ ∧
      MercatorCoordinate.to_geographic ⟨some mx, some my⟩ = ⟨some lon, some lat, 0⟩ := by
  obtain ⟨hl1, hl2⟩ := abs_lt.mp h
  have hpi := Real.pi_pos
  have hpne := Real.pi_ne_zero
  have hS := originshift_ne
  refine ⟨lon * _originshift_180,
    Real.log (Real.tan ((90 + lat) * _pi_360)) / _pi_180 * _originshift_180, rfl, ?_⟩
  unfold MercatorCoordinate.to_geographic
  simp only [Option.map_some', GeographicCoordinate.mk.injEq, Option.some.injEq]
  refine ⟨?_, ?_, trivial⟩
  · unfold _originshift_180 _180_originshift
    field_simp
  · have harg : (Real.log (Real.tan ((90 + lat) * _pi_360)) / _pi_180 * _originshift_180) *
        _180_originshift * _pi_180 = Real.log (Real.tan ((90 + lat) * _pi_360)) := by
      unfold _originshift_180 _180_originshift _pi_180
      field_simp
      ring
    rw [harg]
    have hapos : 0 < (90 + lat) * _pi_360 := by
      unfold _pi_360
      have hq : (0:ℝ) < 90 + lat := by linarith
      positivity
    have halt : (90 + lat) * _pi_360 < Real.pi / 2 := by
      unfold _pi_360
      nlinarith
    have htan : 0 < Real.tan ((90 + lat) * _pi_360) :=
      Real.tan_pos_of_pos_of_lt_pi_div_two hapos halt
    rw [Real.exp_log htan]
    rw [Real.arctan_tan (by linarith) halt]
    unfold _pi_360 _pi_2 _180_pi
    field_simp
    ring

/-- Witness for C9 at `lon = 0`, `lat = 0`: the precondition `|0| < 85` holds
and the round trip is obtained from the theorem itself. -/
theorem claimC9_witness :
    |(0 : ℝ)| < 85 ∧
    ∃ mx my : ℝ,
      GeographicCoordinate.to_mercator ⟨some 0, some 0, 0⟩ =
        Except.ok ⟨some mx, some my⟩ ∧
      MercatorCoordinate.to_geographic ⟨some mx, some my⟩ = ⟨some 0, some 0, 0⟩ :=
  ⟨by norm_num, claimC9 0 0 (by norm_num)⟩

theorem intersects_some_true {a b c d a' b' c' d' : ℝ}
    (h1 : a ≤ c') (h2 : a' ≤ c) (h3 : b ≤ d') (h4 : b' ≤ d) :
    GeographicBB.intersects (GeographicBB.mk' (some a) (some b) (some c) (some d))
      (GeographicBB.mk' (some a') (some b') (some c') (some d')) = Except.ok true := by
  unfold GeographicBB.intersects GeographicBB.mk' pyLE pyGE
  simp [bind_ok_eq, pure_eq_ok, decide_eq_true h1, decide_eq_true h2,
    decide_eq_true h3, decide_eq_true h4]

theorem intersects_some_false {a b c d a' b' c' d' : ℝ}
    (hov : ¬(a ≤ c' ∧ a' ≤ c ∧ b ≤ d' ∧ b' ≤ d)) :
    GeographicBB.intersects (GeographicBB.mk' (some a) (some b) (some c) (some d))
      (GeographicBB.mk' (some a') (some b') (some c') (some d')) = Except.ok false := by
  unfold GeographicBB.intersects GeographicBB.mk' pyLE pyGE
  by_cases h1 : a ≤ c'
  · by_cases h2 : a' ≤ c
    · by_cases h3 : b ≤ d'
      · have h4 : ¬(b' ≤ d) := fun hc => hov ⟨h1, h2, h3, hc⟩
        simp [bind_ok_eq, pure_eq_ok, h1, h2, h3, h4]
      · simp [bind_ok_eq, pure_eq_ok, h1, h2, h3]
    · simp [bind_ok_eq, pure_eq_ok, h1, h2]
  · simp [bind_ok_eq, pure_eq_ok, h1]

/-- C6 (confirmed): `GeographicBB.intersection` returns the component-wise
min/max overlap box exactly when the lon/lat ranges overlap; when the overlap
test fails and `max.lon > 180`, it retries with the box normalized to
longitude range `[-180, max.lon - 360]`; when the overlap test fails and no
wrap correction applies, it returns the empty result `None` (no exception). -/
theorem claimC6 (a b c d a' b' c' d' : ℝ) :
    ((a ≤ c' ∧ a' ≤ c ∧ b ≤ d' ∧ b' ≤ d) →
      (GeographicBB.mk' (some a) (some b) (some c) (some d)).intersection
          (GeographicBB.mk' (some a') (some b') (some c') (some d')) =
        Except.ok (some (GeographicBB.mk' (some (Max.max a a')) (some (Max.max b b'))
          (some (Min.min c c')) (some (Min.min d d'))))) ∧
    (¬(a ≤ c' ∧ a' ≤ c ∧ b ≤ d' ∧ b' ≤ d) → 180 < c →
      (GeographicBB.mk' (some a) (some b) (some c) (some d)).intersection
          (GeographicBB.mk' (some a') (some b') (some c') (some d')) =
        (GeographicBB.mk' (some (-180)) (some b) (some (c - 360)) (some d)).intersection
          (GeographicBB.mk' (some a') (some b') (some c') (some d'))) ∧
    (¬(a ≤ c' ∧ a' ≤ c ∧ b ≤ d' ∧ b' ≤ d) → c ≤ 180 →
      (GeographicBB.mk' (some a) (some b) (some c) (some d)).intersection
          (GeographicBB.mk' (some a') (some b') (some c') (some d')) =
        Except.ok none) := by
  refine ⟨?_, ?_, ?_⟩
  · rintro ⟨h1, h2, h3, h4⟩
    rw [GeographicBB.intersection, intersects_some_true h1 h2 h3 h4]
    simp [GeographicBB.mk', pyMax, pyMin, bind_ok_eq, pure_eq_ok]
  · intro hov hc
    conv_lhs => rw [GeographicBB.intersection]
    rw [intersects_some_false hov]
    simp only [GeographicBB.mk']
    rw [if_pos hc]
  · intro hov hc
    rw [GeographicBB.intersection, intersects_some_false hov]
    simp only [GeographicBB.mk']
    rw [if_neg (not_lt.mpr hc)]

/-- Witness for C6 exercising all three branches at concrete boxes:
an overlapping pair, a non-overlapping pair with `max.lon = 210 > 180`
(wrap retry), and a non-overlapping pair with `max.lon = 120 ≤ 180`
(empty result). -/
theorem claimC6_witness :
    ((GeographicBB.mk' (some 0) (some 0) (some 10) (some 10)).intersection
        (GeographicBB.mk' (some 5) (some 5) (some 20) (some 20)) =
      Except.ok (some (GeographicBB.mk' (some (Max.max 0 5)) (some (Max.max 0 5))
        (some (Min.min 10 20)) (some (Min.min 10 20))))) ∧
    ((GeographicBB.mk' (some 200) (some 0) (some 210) (some 10)).intersection
        (GeographicBB.mk' (some 0) (some 0) (some 10) (some 10)) =
      (GeographicBB.mk' (some (-180)) (some 0) (some ((210 : ℝ) - 360)) (some 10)).intersection
        (GeographicBB.mk' (some 0) (some 0) (some 10) (some 10))) ∧
    ((GeographicBB.mk' (some 100) (some 0) (some 120) (some 10)).intersection
        (GeographicBB.mk' (some 0) (some 0) (some 10) (some 10)) = Except.ok none) :=
  ⟨(claimC6 0 0 10 10 5 5 20 20).1 (by norm_num),
   (claimC6 200 0 210 10 0 0 10 10).2.1 (by norm_num) (by norm_num),
   (claimC6 100 0 120 10 0 0 10 10).2.2 (by norm_num) (by norm_num)⟩
